import Mathlib

/-!
Verification of the bb8-redis adapter (`src/redis/src/lib.rs`) against its
natural-language specification.

The adapter under `src/` is embedded directly.  The bb8 pool core
(`bb8::Pool::run`, `bb8::Pool::dedicated_connection`, `bb8::State`) belongs to
this repository but is not under `src/`; those parts are modelled from the
spec, and each such definition says so in its doc comment.

Effects are made explicit: network I/O outcomes are oracle fields, a Rust
panic (`unwrap`/`expect` on an absent value) is an outer `Option.none`, and
fallible calls return `Except`.
-/

/-- Rust `redis::async::Connection`: an opaque owned handle to one live network
connection, identified here by a numeric id. -/
structure Connection where
  id : Nat
deriving DecidableEq

/-- The `std::io::ErrorKind` values this crate uses. -/
inductive IOErrorKind where
  | TimedOut
  | Other
deriving DecidableEq

/-- Rust `redis::RedisError`: either built from an `io::Error` (kind and message),
as `timed_out` does via `.into()`, or an abstract library error code. -/
inductive RedisError where
  | ioError (kind : IOErrorKind) (msg : String)
  | redis (code : Nat)
deriving DecidableEq

/-- Rust `redis::Client`: external collaborator.  Its one effect used here,
`get_async_connection`, is modelled as an oracle field recording the outcome
of that call. -/
structure Client where
  get_async_connection : Except RedisError Connection

/-- Oracle for the redis library's command I/O: the outcome of
`redis::cmd(name).query_async(conn)`, which on success yields the connection
back together with the command's (unit) reply, and on failure consumes the
connection and yields an error. -/
structure RedisNet where
  query_async : String → Connection → Except RedisError (Connection × Unit)

/-- Rust `RedisConnectionManager` (src lines 73-76): holds the `redis::Client`. -/
structure RedisConnectionManager where
  client : Client

/-- Rust `RedisConnectionManager::new` (src lines 80-82): wraps the client,
returning `Ok` unconditionally despite the `Result` return type. -/
def RedisConnectionManager.new (client : Client) :
    Except RedisError RedisConnectionManager :=
  .ok { client := client }

/-- Rust `RedisConnectionManager::connect` (src lines 89-93):
`self.client.get_async_connection().map(|conn| Some(conn))`. -/
def RedisConnectionManager.connect (m : RedisConnectionManager) :
    Except RedisError (Option Connection) :=
  m.client.get_async_connection.map (fun conn => some conn)

/-- Rust `RedisConnectionManager::is_valid` (src lines 95-106):
`redis::cmd("PING").query_async(conn.unwrap()).map_err(|err| (err, None)).map(|(conn, ())| Some(conn))`.
The outer `none` models the panic of `conn.unwrap()` on an absent handle. -/
def RedisConnectionManager.is_valid (net : RedisNet) (m : RedisConnectionManager)
    (conn : Option Connection) :
    Option (Except (RedisError × Option Connection) (Option Connection)) :=
  match conn with
  | none => none
  | some c =>
      some (match net.query_async "PING" c with
        | .error err => .error (err, none)
        | .ok (c2, _) => .ok (some c2))

/-- Rust `RedisConnectionManager::has_broken` (src lines 108-110): `conn.is_none()`.
The `&mut` receiver is embedded by returning the handle's value after the
call alongside the boolean. -/
def RedisConnectionManager.has_broken (m : RedisConnectionManager)
    (conn : Option Connection) : Bool × Option Connection :=
  (conn.isNone, conn)

/-- Rust `RedisConnectionManager::timed_out` (src lines 112-114):
`io::Error::new(io::ErrorKind::TimedOut, "RedisConnectionManager timed out").into()`. -/
def RedisConnectionManager.timed_out (m : RedisConnectionManager) : RedisError :=
  .ioError .TimedOut "RedisConnectionManager timed out"

/-- Modelled from the spec: `bb8::State`, the read-only snapshot returned by
`state()` — code of this repository not under `src/`.  Per the spec it carries
a count of connections and a count idle. -/
structure Bb8State where
  connections : Nat
  idle_connections : Nat
deriving DecidableEq

/-- Modelled from the spec: the shared state of `bb8::Pool<RedisConnectionManager>`
— code of this repository not under `src/`.  Per the spec the pool state holds
the idle queue of connection handles (handles here are the manager's
`Option<Connection>` type) and the count of handles currently checked out. -/
structure Bb8Pool where
  manager : RedisConnectionManager
  idle : List (Option Connection)
  checked_out : Nat

/-- Modelled from the spec: `bb8::Pool::state` — a snapshot with the total
count of live connections (idle plus checked out) and the idle count. -/
def Bb8Pool.state (p : Bb8Pool) : Bb8State :=
  { connections := p.idle.length + p.checked_out
    idle_connections := p.idle.length }

/-- Modelled from the spec: returning a checked-out handle to the
`bb8::Pool` — code of this repository not under `src/`.  Per the spec the
pool consults the manager's `has_broken`: a broken handle is discarded and
its capacity freed, otherwise the handle goes back to the idle set. -/
def Bb8Pool.putBack (p : Bb8Pool) (conn : Option Connection) : Bb8Pool :=
  if (p.manager.has_broken conn).1 then
    { p with checked_out := p.checked_out - 1 }
  else
    { p with idle := conn :: p.idle, checked_out := p.checked_out - 1 }

/-- Modelled from the spec: `bb8::Pool::run` — code of this repository not
under `src/`.  Per the spec it acquires a handle (taking one from the idle
set, else asking the manager to connect), applies the supplied operation,
and on either outcome hands the handle the operation gives back to the pool,
which recycles or discards it; the operation's error passes through
untouched, and a connect failure surfaces as a connection error (via the
`From<RedisError>` conversion `fromRedis`).  Waiting, retry and timeout are
elided (they decide no claim below); the outer `none` models a panic inside
the supplied operation. -/
def Bb8Pool.run {T E : Type} (fromRedis : RedisError → E) (p : Bb8Pool)
    (f : Option Connection →
      Option (Except (E × Option Connection) (T × Option Connection))) :
    Option (Except E T × Bb8Pool) :=
  match p.idle with
  | conn :: rest =>
      let q : Bb8Pool := { p with idle := rest, checked_out := p.checked_out + 1 }
      (f conn).map (fun r =>
        match r with
        | .ok (item, conn2) => (.ok item, q.putBack conn2)
        | .error (err, conn2) => (.error err, q.putBack conn2))
  | [] =>
      match p.manager.connect with
      | .error e => some (.error (fromRedis e), p)
      | .ok conn =>
          let q : Bb8Pool := { p with checked_out := p.checked_out + 1 }
          (f conn).map (fun r =>
            match r with
            | .ok (item, conn2) => (.ok item, q.putBack conn2)
            | .error (err, conn2) => (.error err, q.putBack conn2))

/-- Modelled from the spec: `bb8::Pool::dedicated_connection` — code of this
repository not under `src/`.  Per the spec it opens a connection using the
same manager but bypasses the pool bookkeeping entirely: no pool-state
mutation, the connection is never placed in the idle set. -/
def Bb8Pool.dedicated_connection (p : Bb8Pool) :
    Except RedisError (Option Connection) × Bb8Pool :=
  (p.manager.connect, p)

/-- Rust `RedisPool` (src lines 22-25): wraps `bb8::Pool<RedisConnectionManager>`. -/
structure RedisPool where
  pool : Bb8Pool

/-- Rust `RedisPool::new` (src lines 30-32). -/
def RedisPool.new (pool : Bb8Pool) : RedisPool :=
  { pool := pool }

/-- The closure built inside `RedisPool::run` (src lines 43-49): unwrap the
optional handle (outer `none` models the panic of `conn.unwrap()` on an
absent handle), run the caller's operation `f`, rewrap a successful updated
handle as `Some`, and replace the handle by `None` on any error of `f`. -/
def RedisPool.wrapOp {T E : Type} (f : Connection → Except E (Connection × T)) :
    Option Connection →
      Option (Except (E × Option Connection) (T × Option Connection)) :=
  fun conn =>
    match conn with
    | none => none
    | some c =>
        some (match f c with
          | .ok (conn2, item) => .ok (item, some conn2)
          | .error err => .error (err, none))

/-- Rust `RedisPool::run` (src lines 35-51): wraps the caller's operation with the
closure above and hands it to `bb8::Pool::run`. -/
def RedisPool.run {T E : Type} (fromRedis : RedisError → E) (p : RedisPool)
    (f : Connection → Except E (Connection × T)) :
    Option (Except E T × Bb8Pool) :=
  p.pool.run fromRedis (RedisPool.wrapOp f)

/-- Rust `RedisPool::dedicated_connection` (src lines 59-65): forwards to
`bb8::Pool::dedicated_connection` and unwraps the optional handle with
`expect` (outer `none` models the panic on an absent handle). -/
def RedisPool.dedicated_connection (p : RedisPool) :
    Option (Except RedisError Connection) :=
  match (p.pool.dedicated_connection).1 with
  | .error e => some (.error e)
  | .ok (some c) => some (.ok c)
  | .ok none => none

/-- Rust `RedisPool::state` (src lines 67-69). -/
def RedisPool.state (p : RedisPool) : Bb8State :=
  p.pool.state

/-! Concrete fixtures used by counterexamples and witnesses. -/

/-- A concrete client whose `get_async_connection` succeeds with connection 0. -/
def client0 : Client :=
  { get_async_connection := .ok { id := 0 } }

/-- A concrete manager over `client0`. -/
def mgr0 : RedisConnectionManager :=
  { client := client0 }

/-- A concrete network oracle on which every command succeeds, returning the
same handle. -/
def netOk : RedisNet :=
  { query_async := fun _ c => .ok (c, ()) }

/-- A concrete network oracle on which every command fails. -/
def netErr : RedisNet :=
  { query_async := fun _ _ => .error (.redis 3) }

/-- A concrete pool holding one idle handle (connection 0), nothing checked
out. -/
def pool0 : RedisPool :=
  { pool := { manager := mgr0, idle := [some { id := 0 }], checked_out := 0 } }

/-- A concrete operation that fails with an application-level error. -/
def opFail : Connection → Except RedisError (Connection × Unit) :=
  fun _ => .error (.redis 7)

/-- A concrete operation that succeeds, returning an updated handle and 42. -/
def opOk : Connection → Except RedisError (Connection × Nat) :=
  fun c => .ok ({ id := c.id + 1 }, 42)

/-! Helper lemmas shared by several claims. -/

/-- A successful `connect` always yields a present handle. -/
theorem connect_isSome (m : RedisConnectionManager) (conn : Option Connection)
    (h : m.connect = .ok conn) : conn.isSome = true := by
  unfold RedisConnectionManager.connect at h
  cases hg : m.client.get_async_connection with
  | error e => rw [hg] at h; simp [Except.map] at h
  | ok c => rw [hg] at h; simp [Except.map] at h; simp [← h]

/-- Handing a handle back to the pool preserves "every idle handle is
present": a `None` handle is flagged broken and discarded, never stored. -/
theorem putBack_preserves_some (p : Bb8Pool) (conn : Option Connection)
    (hp : ∀ x ∈ p.idle, x.isSome = true) :
    ∀ x ∈ (p.putBack conn).idle, x.isSome = true := by
  cases conn with
  | none => simpa [Bb8Pool.putBack, RedisConnectionManager.has_broken] using hp
  | some c =>
      simp only [Bb8Pool.putBack, RedisConnectionManager.has_broken,
        Option.isNone_some, Bool.false_eq_true, if_false, List.mem_cons]
      rintro x (rfl | hx)
      · rfl
      · exact hp x hx

/-! Theorems settling the claims. -/

/-- C3: `has_broken` returns `true` if and only if the handle is absent; it
leaves the handle unchanged and consults nothing but the handle (in
particular, no I/O: the result is the same for every manager). -/
theorem has_broken_iff_absent (m m2 : RedisConnectionManager)
    (conn : Option Connection) :
    ((m.has_broken conn).1 = true ↔ conn = none)
    ∧ (m.has_broken conn).2 = conn
    ∧ m.has_broken conn = m2.has_broken conn := by
  refine ⟨?_, rfl, rfl⟩
  cases conn <;> simp [RedisConnectionManager.has_broken]

/-- C4: `timed_out` is a deterministic constant function: every call returns
the `RedisError` built from an `io::Error` of kind `TimedOut` with message
"RedisConnectionManager timed out". -/
theorem timed_out_constant (m m2 : RedisConnectionManager) :
    m.timed_out = .ioError .TimedOut "RedisConnectionManager timed out"
    ∧ m.timed_out = m2.timed_out :=
  ⟨rfl, rfl⟩

/-- C8: `RedisConnectionManager::new` returns `Ok` for every client argument;
despite its `Result` return type, construction never fails. -/
theorem new_never_fails (client : Client) :
    RedisConnectionManager.new client = .ok { client := client } :=
  rfl

/-- C2: `is_valid` probes liveness by issuing a PING command: on probe success
it returns the connection wrapped as `Some`, and on probe failure it returns
the error paired with nothing (the failed probe consumed the connection, so it
had to be discarded). -/
theorem is_valid_ping_probe (net : RedisNet) (m : RedisConnectionManager)
    (c : Connection) :
    (∀ c2 u, net.query_async "PING" c = .ok (c2, u) →
        RedisConnectionManager.is_valid net m (some c) = some (.ok (some c2)))
    ∧ (∀ e, net.query_async "PING" c = .error e →
        RedisConnectionManager.is_valid net m (some c) = some (.error (e, none))) := by
  constructor
  · intro c2 u h
    simp [RedisConnectionManager.is_valid, h]
  · intro e h
    simp [RedisConnectionManager.is_valid, h]

/-- Witness for C2: on the always-succeeding oracle, `is_valid` on handle 0
returns `Some` of the pinged connection. -/
theorem is_valid_ping_probe_witness :
    netOk.query_async "PING" { id := 0 } = .ok ({ id := 0 }, ())
    ∧ RedisConnectionManager.is_valid netOk mgr0 (some { id := 0 })
        = some (.ok (some { id := 0 })) :=
  ⟨rfl, (is_valid_ping_probe netOk mgr0 { id := 0 }).1 { id := 0 } () rfl⟩

/-- C7: `dedicated_connection` changes no pool bookkeeping: the state snapshot
(connection count and idle count) and the idle set itself are identical before
and after the call, and the pool is untouched, so the returned connection is
never placed in the idle set. -/
theorem dedicated_connection_no_bookkeeping (p : RedisPool) :
    (p.pool.dedicated_connection).2.state = p.pool.state
    ∧ (p.pool.dedicated_connection).2.idle = p.pool.idle
    ∧ (p.pool.dedicated_connection).2 = p.pool :=
  ⟨rfl, rfl, rfl⟩

/-- C1 counterexample: with one idle handle and an operation that fails with
an application-level error (`RedisError.redis 7`), `RedisPool::run` delivers
the error but the handle comes back as `None` and is discarded: afterwards the
idle set is empty and the pool reports zero connections — the handle is not
returned in a usable state and is not recycled to the idle set. -/
theorem run_app_error_discards_handle_cex :
    RedisPool.run (T := Unit) id pool0 opFail
      = some (.error (.redis 7), { manager := mgr0, idle := [], checked_out := 0 })
    ∧ (RedisPool.run (T := Unit) id pool0 opFail).map (fun r => r.2.state)
      = some { connections := 0, idle_connections := 0 } :=
  ⟨rfl, rfl⟩

/-- C1 (amended): for every operation `f` passed to `RedisPool::run`, if `f`
fails — with any error, application-level included — the handle given back to
the pool is `None`; `has_broken` flags it broken, so the pool discards the
handle (freeing its capacity) instead of recycling it to the idle set.  The
error still reaches the caller. -/
theorem run_op_error_hands_back_none {T E : Type} (fromRedis : RedisError → E)
    (p : RedisPool) (c : Connection) (rest : List (Option Connection))
    (f : Connection → Except E (Connection × T)) (e : E)
    (hidle : p.pool.idle = some c :: rest) (hf : f c = .error e) :
    RedisPool.run fromRedis p f
      = some (.error e, { p.pool with idle := rest }) := by
  simp [RedisPool.run, Bb8Pool.run, hidle, RedisPool.wrapOp, hf, Bb8Pool.putBack,
    RedisConnectionManager.has_broken]

/-- Witness for the amended C1 at a concrete pool and failing operation. -/
theorem run_op_error_hands_back_none_witness :
    pool0.pool.idle = some { id := 0 } :: []
    ∧ opFail { id := 0 } = .error (.redis 7)
    ∧ RedisPool.run (T := Unit) id pool0 opFail
        = some (.error (.redis 7), { pool0.pool with idle := [] }) :=
  ⟨rfl, rfl,
    run_op_error_hands_back_none id pool0 { id := 0 } [] opFail (.redis 7) rfl rfl⟩

/-- C5: when the operation passed to `RedisPool::run` fails, the error value
delivered to the caller of `run` is exactly the error the operation produced,
unmodified. -/
theorem run_passes_op_error_through {T E : Type} (fromRedis : RedisError → E)
    (p : RedisPool) (c : Connection) (rest : List (Option Connection))
    (f : Connection → Except E (Connection × T)) (e : E)
    (hidle : p.pool.idle = some c :: rest) (hf : f c = .error e) :
    (RedisPool.run fromRedis p f).map (fun r => r.1) = some (.error e) := by
  simp [RedisPool.run, Bb8Pool.run, hidle, RedisPool.wrapOp, hf]

/-- Witness for C5 at a concrete pool and failing operation. -/
theorem run_passes_op_error_through_witness :
    pool0.pool.idle = some { id := 0 } :: []
    ∧ opFail { id := 0 } = .error (.redis 7)
    ∧ (RedisPool.run (T := Unit) id pool0 opFail).map (fun r => r.1)
        = some (.error (.redis 7)) :=
  ⟨rfl, rfl,
    run_passes_op_error_through id pool0 { id := 0 } [] opFail (.redis 7) rfl rfl⟩

/-- C6: when the operation passed to `RedisPool::run` succeeds with an updated
handle and a result, the caller receives exactly that result, and the updated
handle — wrapped as `Some`, not the original — is handed back to the pool and
recycled to the idle set. -/
theorem run_success_returns_result_and_recycles {T E : Type}
    (fromRedis : RedisError → E) (p : RedisPool) (c c2 : Connection)
    (rest : List (Option Connection))
    (f : Connection → Except E (Connection × T)) (t : T)
    (hidle : p.pool.idle = some c :: rest) (hf : f c = .ok (c2, t)) :
    RedisPool.run fromRedis p f
      = some (.ok t, { p.pool with idle := some c2 :: rest }) := by
  simp [RedisPool.run, Bb8Pool.run, hidle, RedisPool.wrapOp, hf, Bb8Pool.putBack,
    RedisConnectionManager.has_broken]

/-- Witness for C6: the successful operation on handle 0 yields 42 and the
updated handle 1 is recycled. -/
theorem run_success_returns_result_and_recycles_witness :
    pool0.pool.idle = some { id := 0 } :: []
    ∧ opOk { id := 0 } = .ok ({ id := 1 }, 42)
    ∧ RedisPool.run id pool0 opOk
        = some (.ok 42, { pool0.pool with idle := [some { id := 1 }] }) :=
  ⟨rfl, rfl,
    run_success_returns_result_and_recycles id pool0 { id := 0 } { id := 1 } []
      opOk 42 rfl rfl⟩

/-- A completed `Bb8Pool.run` never stores an absent handle in the idle set. -/
theorem run_preserves_some {T E : Type} (fromRedis : RedisError → E) (p : Bb8Pool)
    (f : Option Connection →
      Option (Except (E × Option Connection) (T × Option Connection)))
    (res : Except E T × Bb8Pool)
    (hp : ∀ x ∈ p.idle, x.isSome = true)
    (hrun : Bb8Pool.run fromRedis p f = some res) :
    ∀ x ∈ res.2.idle, x.isSome = true := by
  cases hidle : p.idle with
  | nil =>
      cases hc : p.manager.connect with
      | error e =>
          simp [Bb8Pool.run, hidle, hc] at hrun
          subst hrun
          intro x hx
          exact hp x (by simpa [hidle] using hx)
      | ok conn =>
          cases hf : f conn with
          | none => simp [Bb8Pool.run, hidle, hc, hf] at hrun
          | some r =>
              cases r with
              | ok pr =>
                  obtain ⟨item, conn2⟩ := pr
                  simp [Bb8Pool.run, hidle, hc, hf] at hrun
                  subst hrun
                  exact putBack_preserves_some _ conn2 (by intro x hx; simp at hx)
              | error pr =>
                  obtain ⟨err, conn2⟩ := pr
                  simp [Bb8Pool.run, hidle, hc, hf] at hrun
                  subst hrun
                  exact putBack_preserves_some _ conn2 (by intro x hx; simp at hx)
  | cons conn rest =>
      have hrest : ∀ x ∈ rest, x.isSome = true := by
        intro x hx
        exact hp x (by rw [hidle]; exact List.mem_cons_of_mem _ hx)
      cases hf : f conn with
      | none => simp [Bb8Pool.run, hidle, hf] at hrun
      | some r =>
          cases r with
          | ok pr =>
              obtain ⟨item, conn2⟩ := pr
              simp [Bb8Pool.run, hidle, hf] at hrun
              subst hrun
              exact putBack_preserves_some _ conn2 hrest
          | error pr =>
              obtain ⟨err, conn2⟩ := pr
              simp [Bb8Pool.run, hidle, hf] at hrun
              subst hrun
              exact putBack_preserves_some _ conn2 hrest

/-- C9: a successful `connect` always yields a present (`Some`) handle, a
successful `is_valid` also yields `Some`, and returning a handle to the pool
preserves "every idle handle is `Some`" — as does a completed `run` — so every
handle the pool stores as idle is present; a `None` handle can arise only from
a failure path. -/
theorem idle_handles_always_some :
    (∀ (m : RedisConnectionManager) conn, m.connect = .ok conn → conn.isSome = true)
    ∧ (∀ net (m : RedisConnectionManager) conn r,
        RedisConnectionManager.is_valid net m conn = some (.ok r) → r.isSome = true)
    ∧ (∀ (p : Bb8Pool) conn, (∀ x ∈ p.idle, x.isSome = true) →
        ∀ x ∈ (p.putBack conn).idle, x.isSome = true)
    ∧ (∀ (T E : Type) (fromRedis : RedisError → E) (p : Bb8Pool)
        (f : Option Connection →
          Option (Except (E × Option Connection) (T × Option Connection)))
        (res : Except E T × Bb8Pool),
        (∀ x ∈ p.idle, x.isSome = true) → Bb8Pool.run fromRedis p f = some res →
        ∀ x ∈ res.2.idle, x.isSome = true) := by
  refine ⟨connect_isSome, ?_, putBack_preserves_some, ?_⟩
  · intro net m conn r h
    cases conn with
    | none => simp [RedisConnectionManager.is_valid] at h
    | some c =>
        cases hq : net.query_async "PING" c with
        | error e => simp [RedisConnectionManager.is_valid, hq] at h
        | ok pr =>
            obtain ⟨c2, u⟩ := pr
            simp [RedisConnectionManager.is_valid, hq] at h
            simp [← h]
  · intro T E fromRedis p f res hp hrun
    exact run_preserves_some fromRedis p f res hp hrun

/-- Witness for C9: the concrete manager's successful `connect` yields a
present handle. -/
theorem idle_handles_always_some_witness :
    mgr0.connect = .ok (some { id := 0 })
    ∧ (some ({ id := 0 } : Connection)).isSome = true :=
  ⟨rfl, idle_handles_always_some.1 mgr0 (some { id := 0 }) rfl⟩

/-- C10: the `unwrap` inside `RedisPool::run` and the `expect` inside
`RedisPool::dedicated_connection` never panic under the stated precondition:
when every idle handle is present (`Some`) — which successful `connect`
guarantees and `has_broken` filtering maintains — `run` always produces a
value (a panic is modelled by the result being the outer `none`), and
`dedicated_connection` always produces a value unconditionally. -/
theorem unwrap_never_panics :
    (∀ (T E : Type) (fromRedis : RedisError → E) (p : RedisPool)
        (f : Connection → Except E (Connection × T)),
        (∀ x ∈ p.pool.idle, x.isSome = true) →
        (RedisPool.run fromRedis p f).isSome = true)
    ∧ (∀ p : RedisPool, (RedisPool.dedicated_connection p).isSome = true) := by
  constructor
  · intro T E fromRedis p f hp
    cases hidle : p.pool.idle with
    | cons conn rest =>
        have hc : conn.isSome = true :=
          hp conn (by rw [hidle]; exact List.mem_cons_self _ _)
        obtain ⟨c, rfl⟩ := Option.isSome_iff_exists.mp hc
        simp [RedisPool.run, Bb8Pool.run, hidle, RedisPool.wrapOp]
    | nil =>
        cases hg : p.pool.manager.client.get_async_connection with
        | error e =>
            simp [RedisPool.run, Bb8Pool.run, hidle,
              RedisConnectionManager.connect, hg, Except.map]
        | ok c =>
            simp [RedisPool.run, Bb8Pool.run, hidle,
              RedisConnectionManager.connect, hg, Except.map, RedisPool.wrapOp]
  · intro p
    cases hg : p.pool.manager.client.get_async_connection with
    | error e =>
        simp [RedisPool.dedicated_connection, Bb8Pool.dedicated_connection,
          RedisConnectionManager.connect, hg, Except.map]
    | ok c =>
        simp [RedisPool.dedicated_connection, Bb8Pool.dedicated_connection,
          RedisConnectionManager.connect, hg, Except.map]

/-- Witness for C10: the concrete pool's idle handles are all present, and a
`run` on it produces a value (no panic). -/
theorem unwrap_never_panics_witness :
    (∀ x ∈ pool0.pool.idle, x.isSome = true)
    ∧ (RedisPool.run (T := Unit) id pool0 opFail).isSome = true :=
  ⟨by decide, unwrap_never_panics.1 Unit RedisError id pool0 opFail (by decide)⟩
